import Mathlib

/-!
Verification development for the Upbit martingale-style DCA trading bot
(src/index.tsx and src/types.ts).  JavaScript numbers are modelled as
exact rationals (ℚ); `a || b` fallbacks on a numeric `a` are modelled as
`if a = 0 then b else a`, matching JS falsiness of `0`.
-/

/-- `TradingConfig` from src/types.ts (the fields the decision engine reads;
API keys, coin id and proxy flag are plumbing and carry no numeric logic). -/
structure TradingConfig where
  maxBuySteps : Nat
  buyInterval : ℚ
  targetProfit : ℚ
  stopLoss : ℚ
  initialAmount : ℚ
  premiumRate : ℚ
deriving DecidableEq, Repr

/-- `TradeStatus & { lastBuyPrice: number }` from src/index.tsx line 56. -/
structure TradeStatus where
  isActive : Bool
  currentStep : Nat
  averagePrice : ℚ
  totalQuantity : ℚ
  totalInvested : ℚ
  currentPrice : ℚ
  pnlPercentage : ℚ
  currentChangeRate : ℚ
  lastBuyPrice : ℚ
deriving DecidableEq, Repr

inductive ExitType where
  | PROFIT
  | LOSS
deriving DecidableEq, Repr

/-- The numeric payload of a `TradeRecord` (src/types.ts); the string id,
timestamp and coin name are produced by the UI layer. -/
structure TradeRecord where
  exitType : ExitType
  pnlPercentage : ℚ
  pnlAmount : ℚ
  totalInvested : ℚ
  finalStep : Nat
deriving DecidableEq, Repr

/-- src/index.tsx line 208:
`((currentPrice - averagePrice) / (averagePrice || currentPrice)) * 100`. -/
def pnlOf (averagePrice price : ℚ) : ℚ :=
  (price - averagePrice) / (if averagePrice = 0 then price else averagePrice) * 100

/-- The three assignment lines shared by the live scale-in
(src/index.tsx lines 251-253) and the backtest scale-in (lines 411-413):
accumulate invested and quantity, recompute the average from the new totals.
Returns `(newTotalInvested, newTotalQuantity, newAveragePrice)`. -/
def applyFill (invested qty price amount : ℚ) : ℚ × ℚ × ℚ :=
  let invested2 := invested + amount
  let qty2 := qty + amount / price
  (invested2, qty2, invested2 / qty2)

/-- Result of one pass of the live update loop over an active-or-idle status:
the new status, the trade record appended to history (if an exit fired), and
whether an order placement failed (the source logs it via console.error). -/
structure TickResult where
  status : TradeStatus
  record : Option TradeRecord
  orderError : Bool
deriving DecidableEq, Repr

/-- src/index.tsx lines 204-280, the decision part of `updateLoop` once a
ticker price has been fetched.  `sellOk` / `buyOk` model whether the
`placeUpbitOrder` call in the corresponding branch resolves or rejects. -/
def updateLoop (cfg : TradingConfig) (st : TradeStatus) (price changeRate : ℚ)
    (sellOk buyOk : Bool) : TickResult :=
  if st.isActive then
    let pnl := pnlOf st.averagePrice price
    if pnl ≥ cfg.targetProfit ∨ pnl ≤ -cfg.stopLoss then
      let exitType := if pnl ≥ cfg.targetProfit then ExitType.PROFIT else ExitType.LOSS
      let record : TradeRecord :=
        { exitType := exitType
          pnlPercentage := pnl
          pnlAmount := st.totalInvested * (pnl / 100)
          totalInvested := st.totalInvested
          finalStep := st.currentStep }
      { status :=
          { st with
            isActive := false
            currentStep := 0
            pnlPercentage := 0
            totalInvested := 0
            totalQuantity := 0
            averagePrice := 0
            lastBuyPrice := 0
            currentPrice := price
            currentChangeRate := changeRate }
        record := some record
        orderError := !sellOk }
    else if st.currentStep < cfg.maxBuySteps ∧
        price ≤ st.lastBuyPrice * (1 - cfg.buyInterval / 100) then
      if buyOk then
        let nextStep := st.currentStep + 1
        let currentBuyAmount :=
          cfg.initialAmount * 10000 * (1 + cfg.premiumRate / 100) ^ (nextStep - 1)
        let fill := applyFill st.totalInvested st.totalQuantity price currentBuyAmount
        let newAveragePrice := fill.2.2
        { status :=
            { st with
              currentStep := nextStep
              averagePrice := newAveragePrice
              totalQuantity := fill.2.1
              totalInvested := fill.1
              lastBuyPrice := price
              currentPrice := price
              currentChangeRate := changeRate
              pnlPercentage := (price - newAveragePrice) /
                (if newAveragePrice = 0 then 1 else newAveragePrice) * 100 }
          record := none
          orderError := false }
      else
        { status := st, record := none, orderError := true }
    else
      { status :=
          { st with
            currentPrice := price
            currentChangeRate := changeRate
            pnlPercentage := pnl }
        record := none
        orderError := false }
  else
    { status := { st with currentPrice := price, currentChangeRate := changeRate }
      record := none
      orderError := false }

/-- src/index.tsx lines 337-352: the start branch of `handleToggleBot`,
after a ticker price has been obtained and the initial buy order succeeded. -/
def startBot (cfg : TradingConfig) (price changeRate : ℚ) : TradeStatus :=
  let initialBuyAmount := cfg.initialAmount * 10000
  { isActive := true
    currentStep := 1
    averagePrice := price
    lastBuyPrice := price
    totalQuantity := initialBuyAmount / price
    totalInvested := initialBuyAmount
    currentPrice := price
    currentChangeRate := changeRate
    pnlPercentage := 0 }

/-- src/index.tsx lines 359-368: the stop branch of `handleToggleBot`. -/
def stopBot (st : TradeStatus) : TradeStatus :=
  { st with
    isActive := false
    currentStep := 0
    pnlPercentage := 0
    averagePrice := 0
    totalInvested := 0
    totalQuantity := 0
    lastBuyPrice := 0 }

/-- `CandleData` from the upbit service module: `price` is the
close-equivalent field, `high` / `low` are optional. -/
structure CandleData where
  price : ℚ
  high : Option ℚ
  low : Option ℚ
deriving DecidableEq, Repr

/-- src/index.tsx line 383: `candle.low || candle.price` (a missing or zero
low falls back to the close price). -/
def lowOf (c : CandleData) : ℚ :=
  match c.low with
  | some l => if l = 0 then c.price else l
  | none => c.price

/-- src/index.tsx line 384: `candle.high || candle.price`. -/
def highOf (c : CandleData) : ℚ :=
  match c.high with
  | some h => if h = 0 then c.price else h
  | none => c.price

/-- The mutable locals of `runBacktest` (src/index.tsx line 379). -/
structure BtState where
  balance : ℚ
  step : Nat
  totalQty : ℚ
  avgPrice : ℚ
  lastBuyPrice : ℚ
  trades : Nat
  wins : Nat
  losses : Nat
  totalInvested : ℚ
  peak : ℚ
  mdd : ℚ
deriving DecidableEq, Repr

def BtState.init : BtState :=
  { balance := 0, step := 0, totalQty := 0, avgPrice := 0, lastBuyPrice := 0
    trades := 0, wins := 0, losses := 0, totalInvested := 0, peak := 0, mdd := 0 }

/-- src/index.tsx lines 406-418: the `while (step < maxBuySteps)` scale-in
cascade inside one bar.  `fuel` is `maxBuySteps - step`, so the loop guard
`step < maxBuySteps` is exactly `fuel > 0`. -/
def backtestCascade (cfg : TradingConfig) (capital low : ℚ) :
    Nat → BtState → BtState
  | 0, s => s
  | fuel + 1, s =>
    let nextBuyPrice := s.lastBuyPrice * (1 - cfg.buyInterval / 100)
    if low ≤ nextBuyPrice then
      let step2 := s.step + 1
      let buyAmount := capital * (1 + cfg.premiumRate / 100) ^ (step2 - 1)
      let fill := applyFill s.totalInvested s.totalQty nextBuyPrice buyAmount
      backtestCascade cfg capital low fuel
        { s with
          step := step2
          totalQty := fill.2.1
          totalInvested := fill.1
          avgPrice := fill.2.2
          lastBuyPrice := nextBuyPrice }
    else s

/-- src/index.tsx lines 423-425: update the running equity peak and the
maximum drawdown, `(peak - equity) / peak * 100` treated as 0 when
`peak ≤ 0`.  Input and output are the pair `(peak, mdd)`. -/
def ddStep (pm : ℚ × ℚ) (equity : ℚ) : ℚ × ℚ :=
  let peak := if equity > pm.1 then equity else pm.1
  let dd := if peak ≤ 0 then 0 else (peak - equity) / peak * 100
  (peak, if dd > pm.2 then dd else pm.2)

/-- src/index.tsx lines 387-420: the trading part of the body of the
`for (const candle of candles)` loop of `runBacktest`: open a position,
or close it on stop-loss / take-profit, or cascade scale-ins.
`capital` is `initialInvestedCapital`. -/
def backtestTrade (cfg : TradingConfig) (capital : ℚ) (s : BtState)
    (candle : CandleData) : BtState :=
  if s.step = 0 then
    { s with
      step := 1
      totalQty := capital / candle.price
      avgPrice := candle.price
      lastBuyPrice := candle.price
      totalInvested := capital }
  else
    let slPrice := s.avgPrice * (1 - cfg.stopLoss / 100)
    let tpPrice := s.avgPrice * (1 + cfg.targetProfit / 100)
    if lowOf candle ≤ slPrice then
      { s with
        balance := s.balance + (s.totalQty * slPrice - s.totalInvested)
        trades := s.trades + 1
        losses := s.losses + 1
        step := 0
        totalQty := 0
        totalInvested := 0 }
    else if highOf candle ≥ tpPrice then
      { s with
        balance := s.balance + (s.totalQty * tpPrice - s.totalInvested)
        trades := s.trades + 1
        wins := s.wins + 1
        step := 0
        totalQty := 0
        totalInvested := 0 }
    else
      backtestCascade cfg capital (lowOf candle) (cfg.maxBuySteps - s.step) s

/-- src/index.tsx lines 382-426: the whole loop body for one candle:
`backtestTrade` followed by the equity / peak / drawdown update of
lines 422-425. -/
def backtestStep (cfg : TradingConfig) (capital : ℚ) (s : BtState)
    (candle : CandleData) : BtState :=
  let s1 := backtestTrade cfg capital s candle
  let currentEquity :=
    s1.balance +
      (if s1.step > 0 then s1.totalQty * candle.price - s1.totalInvested else 0)
  let pm := ddStep (s1.peak, s1.mdd) currentEquity
  { s1 with peak := pm.1, mdd := pm.2 }

/-- The final internal state of `runBacktest` over a candle sequence,
starting from all-zero locals with `initialInvestedCapital =
config.initialAmount * 10000` (src/index.tsx line 380). -/
def runBacktestState (cfg : TradingConfig) (candles : List CandleData) : BtState :=
  candles.foldl (backtestStep cfg (cfg.initialAmount * 10000)) BtState.init

/-- `BacktestResult` from src/index.tsx lines 9-16. -/
structure BacktestResult where
  totalProfit : ℤ
  profitRate : ℚ
  totalTrades : Nat
  winCount : Nat
  lossCount : Nat
  maxDrawdown : ℚ
deriving DecidableEq, Repr

/-- JavaScript `Number(x.toFixed(2))`: round to two decimal places. -/
def roundTo2 (x : ℚ) : ℚ := (round (x * 100) : ℤ) / 100

/-- src/index.tsx lines 428-432: package the loop state into the reported
`BacktestResult` (`Math.round` on the profit, `toFixed(2)` on the rate
and the drawdown). -/
def runBacktest (cfg : TradingConfig) (candles : List CandleData) : BacktestResult :=
  let s := runBacktestState cfg candles
  { totalProfit := round s.balance
    profitRate := roundTo2 (s.balance / (cfg.initialAmount * 10000) * 100)
    totalTrades := s.trades
    winCount := s.wins
    lossCount := s.losses
    maxDrawdown := roundTo2 s.mdd }

/-! ## Averaging invariant -/

/-- While the live position is active, the stored average price equals
invested capital over quantity. -/
def avgConsistent (st : TradeStatus) : Prop :=
  st.isActive = true → st.averagePrice = st.totalInvested / st.totalQuantity

/-- Backtest counterpart: while a simulated position is open (`step > 0`),
the stored average price equals invested capital over quantity. -/
def btAvgConsistent (s : BtState) : Prop :=
  0 < s.step → s.avgPrice = s.totalInvested / s.totalQty

/-- Fold a sequence of `(price, amount)` fills through `applyFill`,
threading `(totalInvested, totalQuantity, averagePrice)`. -/
def fillFold (init : ℚ × ℚ × ℚ) (fills : List (ℚ × ℚ)) : ℚ × ℚ × ℚ :=
  fills.foldl (fun s f => applyFill s.1 s.2.1 f.1 f.2) init

/-- The totals reached from an empty position by a fill sequence. -/
def runFills (fills : List (ℚ × ℚ)) : ℚ × ℚ × ℚ := fillFold (0, 0, 0) fills

lemma fillFold_spec : ∀ (fills : List (ℚ × ℚ)) (i q a : ℚ),
    (fillFold (i, q, a) fills).1 = i + (fills.map Prod.snd).sum
    ∧ (fillFold (i, q, a) fills).2.1 = q + (fills.map fun f => f.2 / f.1).sum
    ∧ (fills ≠ [] → (fillFold (i, q, a) fills).2.2
        = (fillFold (i, q, a) fills).1 / (fillFold (i, q, a) fills).2.1) := by
  intro fills
  induction fills with
  | nil => intro i q a; simp [fillFold]
  | cons f t ih =>
    intro i q a
    have hstep : fillFold (i, q, a) (f :: t)
        = fillFold (i + f.2, q + f.2 / f.1, (i + f.2) / (q + f.2 / f.1)) t := by
      simp [fillFold, applyFill]
    obtain ⟨h1, h2, h3⟩ := ih (i + f.2) (q + f.2 / f.1) ((i + f.2) / (q + f.2 / f.1))
    refine ⟨?_, ?_, fun _ => ?_⟩
    · rw [hstep, h1]; simp; ring
    · rw [hstep, h2]; simp; ring
    · rcases t with _ | ⟨g, t2⟩
      · rw [hstep]; simp [fillFold, applyFill]
      · rw [hstep]; exact h3 (by simp)

lemma updateLoop_avgConsistent (cfg : TradingConfig) (st : TradeStatus)
    (price changeRate : ℚ) (sellOk buyOk : Bool) (h : avgConsistent st) :
    avgConsistent (updateLoop cfg st price changeRate sellOk buyOk).status := by
  unfold avgConsistent at *
  simp only [updateLoop]
  split_ifs <;> simp_all [applyFill]

lemma backtestCascade_avgConsistent (cfg : TradingConfig) (capital low : ℚ) :
    ∀ (fuel : Nat) (s : BtState), btAvgConsistent s →
      btAvgConsistent (backtestCascade cfg capital low fuel s) := by
  intro fuel
  induction fuel with
  | zero => intro s h; exact h
  | succ n ih =>
    intro s h
    simp only [backtestCascade]
    split_ifs with hlow
    · exact ih _ (fun _ => by simp [applyFill])
    · exact h

lemma backtestStep_fields (cfg : TradingConfig) (capital : ℚ) (s : BtState)
    (c : CandleData) :
    (backtestStep cfg capital s c).step = (backtestTrade cfg capital s c).step
    ∧ (backtestStep cfg capital s c).avgPrice
        = (backtestTrade cfg capital s c).avgPrice
    ∧ (backtestStep cfg capital s c).totalInvested
        = (backtestTrade cfg capital s c).totalInvested
    ∧ (backtestStep cfg capital s c).totalQty
        = (backtestTrade cfg capital s c).totalQty := by
  simp only [backtestStep]
  simp

lemma backtestTrade_avgConsistent (cfg : TradingConfig) (capital : ℚ)
    (hc : capital ≠ 0) (s : BtState) (c : CandleData)
    (h : btAvgConsistent s) : btAvgConsistent (backtestTrade cfg capital s c) := by
  unfold btAvgConsistent at *
  simp only [backtestTrade]
  split_ifs with h1 h2 h3
  · intro _
    simp only
    rw [div_div_eq_mul_div, mul_div_cancel_left₀ _ hc]
  · intro hstep; simp at hstep
  · intro hstep; simp at hstep
  · exact backtestCascade_avgConsistent cfg capital (lowOf c) _ s h

lemma backtestStep_avgConsistent (cfg : TradingConfig) (capital : ℚ)
    (hc : capital ≠ 0) (s : BtState) (c : CandleData)
    (h : btAvgConsistent s) : btAvgConsistent (backtestStep cfg capital s c) := by
  obtain ⟨e1, e2, e3, e4⟩ := backtestStep_fields cfg capital s c
  unfold btAvgConsistent at *
  rw [e1, e2, e3, e4]
  exact backtestTrade_avgConsistent cfg capital hc s c h

lemma runBacktestState_avgConsistent (cfg : TradingConfig)
    (hi : cfg.initialAmount ≠ 0) (candles : List CandleData) :
    btAvgConsistent (runBacktestState cfg candles) := by
  have hc : cfg.initialAmount * 10000 ≠ 0 := mul_ne_zero hi (by norm_num)
  unfold runBacktestState
  have main : ∀ (l : List CandleData) (s : BtState), btAvgConsistent s →
      btAvgConsistent (l.foldl (backtestStep cfg (cfg.initialAmount * 10000)) s) := by
    intro l
    induction l with
    | nil => intro s h; exact h
    | cons c t ih =>
      intro s h
      exact ih _ (backtestStep_avgConsistent cfg _ hc s c h)
  exact main candles BtState.init (by intro h; simp [BtState.init] at h)

/-- C1: while a position is active, after every accepted buy — the initial
buy, every live scale-in, and every backtest scale-in — the stored
`averagePrice` equals `totalInvested / totalQuantity`; and for any sequence
of fills `(price_i, amount_i)` threaded through the engine's fill update,
the resulting average equals `(Σ amount_i) / (Σ amount_i / price_i)`.  The
average is always recomputed from the running totals, never independently
mutated. -/
theorem averagePrice_totals_invariant (cfg : TradingConfig)
    (price changeRate : ℚ) (hp : price ≠ 0) (hi : cfg.initialAmount ≠ 0) :
    avgConsistent (startBot cfg price changeRate)
    ∧ (∀ (st : TradeStatus) (pr cr : ℚ) (sellOk buyOk : Bool), avgConsistent st →
        avgConsistent (updateLoop cfg st pr cr sellOk buyOk).status)
    ∧ (∀ candles : List CandleData, btAvgConsistent (runBacktestState cfg candles))
    ∧ (∀ fills : List (ℚ × ℚ),
        (runFills fills).2.2
          = (fills.map Prod.snd).sum / (fills.map fun f => f.2 / f.1).sum) := by
  refine ⟨?_, ?_, ?_, ?_⟩
  · intro _
    simp only [startBot]
    rw [div_div_eq_mul_div, mul_div_cancel_left₀ _ (mul_ne_zero hi (by norm_num))]
  · intro st pr cr sellOk buyOk h
    exact updateLoop_avgConsistent cfg st pr cr sellOk buyOk h
  · exact runBacktestState_avgConsistent cfg hi
  · intro fills
    rcases fills with _ | ⟨f, t⟩
    · simp [runFills, fillFold]
    · obtain ⟨h1, h2, h3⟩ := fillFold_spec (f :: t) 0 0 0
      rw [runFills, h3 (by simp), h1, h2]
      simp

/-- Concrete witness for `averagePrice_totals_invariant`. -/
theorem averagePrice_totals_invariant_witness :
    (100 : ℚ) ≠ 0 ∧ (1 : ℚ) ≠ 0
    ∧ avgConsistent (startBot ⟨10, 2, 3, 10, 1, 0⟩ 100 0) :=
  ⟨by norm_num, by norm_num,
    (averagePrice_totals_invariant ⟨10, 2, 3, 10, 1, 0⟩ 100 0 (by norm_num)
      (by norm_num)).1⟩

/-! ## Step sizing -/

/-- The buy amount the code uses for scale-in step `step` (src/index.tsx
line 246 and line 410): `capital * (1 + premiumRate/100)^(step-1)`, where
`capital` is the initial buy amount. -/
def sizeForStep (capital premiumRate : ℚ) (step : Nat) : ℚ :=
  capital * (1 + premiumRate / 100) ^ (step - 1)

/-- C2: step 1 uses the initial amount unscaled; with a premium rate ≥ 0 the
buy sizes are non-decreasing in the step number; the live scale-in taken
from step s invests exactly `sizeForStep` of step s+1; the backtest cascade
fill from step s likewise; and with initial amount 10000 and premium rate 10
the step-3 size is 12100. -/
theorem sizeForStep_growth (capital premiumRate : ℚ) (n : Nat)
    (hcap : 0 ≤ capital) (hprem : 0 ≤ premiumRate) :
    sizeForStep capital premiumRate 1 = capital
    ∧ sizeForStep capital premiumRate n ≤ sizeForStep capital premiumRate (n + 1)
    ∧ (∀ (cfg : TradingConfig) (st : TradeStatus) (price cr : ℚ) (sellOk : Bool),
        st.isActive = true →
        ¬(pnlOf st.averagePrice price ≥ cfg.targetProfit
            ∨ pnlOf st.averagePrice price ≤ -cfg.stopLoss) →
        st.currentStep < cfg.maxBuySteps →
        price ≤ st.lastBuyPrice * (1 - cfg.buyInterval / 100) →
        (updateLoop cfg st price cr sellOk true).status.totalInvested
          = st.totalInvested
            + sizeForStep (cfg.initialAmount * 10000) cfg.premiumRate
                (st.currentStep + 1))
    ∧ (∀ (cfg : TradingConfig) (cap low : ℚ) (fuel : Nat) (s : BtState),
        low ≤ s.lastBuyPrice * (1 - cfg.buyInterval / 100) →
        ∃ s2 : BtState,
          backtestCascade cfg cap low (fuel + 1) s
              = backtestCascade cfg cap low fuel s2
            ∧ s2.totalInvested
                = s.totalInvested + sizeForStep cap cfg.premiumRate (s.step + 1)
            ∧ s2.step = s.step + 1)
    ∧ sizeForStep 10000 10 3 = 12100 := by
  have hx : (1 : ℚ) ≤ 1 + premiumRate / 100 := by
    have : (0 : ℚ) ≤ premiumRate / 100 := by positivity
    linarith
  refine ⟨by simp [sizeForStep], ?_, ?_, ?_, by norm_num [sizeForStep]⟩
  · unfold sizeForStep
    have hpow : (1 + premiumRate / 100) ^ (n - 1)
        ≤ (1 + premiumRate / 100) ^ (n + 1 - 1) := by
      apply pow_le_pow_right₀ hx
      omega
    exact mul_le_mul_of_nonneg_left hpow hcap
  · intro cfg st price cr sellOk hact hnoexit hlt hle
    simp only [updateLoop]
    split_ifs with h1 h2 h3 <;>
      simp_all [applyFill, sizeForStep]
  · intro cfg cap low fuel s hle
    refine ⟨{ s with
        step := s.step + 1
        totalQty := (applyFill s.totalInvested s.totalQty
          (s.lastBuyPrice * (1 - cfg.buyInterval / 100))
          (cap * (1 + cfg.premiumRate / 100) ^ (s.step + 1 - 1))).2.1
        totalInvested := (applyFill s.totalInvested s.totalQty
          (s.lastBuyPrice * (1 - cfg.buyInterval / 100))
          (cap * (1 + cfg.premiumRate / 100) ^ (s.step + 1 - 1))).1
        avgPrice := (applyFill s.totalInvested s.totalQty
          (s.lastBuyPrice * (1 - cfg.buyInterval / 100))
          (cap * (1 + cfg.premiumRate / 100) ^ (s.step + 1 - 1))).2.2
        lastBuyPrice := s.lastBuyPrice * (1 - cfg.buyInterval / 100) }, ?_, ?_, ?_⟩
    · simp only [backtestCascade]
      rw [if_pos hle]
    · simp [applyFill, sizeForStep]
    · rfl

/-- Concrete witness for `sizeForStep_growth`. -/
theorem sizeForStep_growth_witness :
    sizeForStep 10000 10 1 = 10000 ∧ sizeForStep 10000 10 3 = 12100 :=
  ⟨(sizeForStep_growth 10000 10 2 (by norm_num) (by norm_num)).1,
    (sizeForStep_growth 10000 10 2 (by norm_num) (by norm_num)).2.2.2.2⟩

/-! ## PnL and exit decisions -/

/-- C3 counterexample: with `averagePrice = 0` and price 100, the pnl the
engine computes on src/index.tsx line 208 is 100, not the 0 the claim
states (the `averagePrice || currentPrice` fallback divides by the current
price, it does not hard-code 0). -/
theorem pnlOf_zero_avg_counterexample : pnlOf 0 100 = 100 ∧ pnlOf 0 100 ≠ 0 := by
  norm_num [pnlOf]

/-- C3 amended: the engine's pnl equals
`(price - averagePrice) / averagePrice * 100` whenever `averagePrice > 0`;
when `averagePrice = 0` the denominator falls back to the current price, so
the pnl is 100 (not 0) for every positive price. -/
theorem pnlOf_spec (averagePrice price : ℚ) :
    (0 < averagePrice →
      pnlOf averagePrice price = (price - averagePrice) / averagePrice * 100)
    ∧ (averagePrice = 0 → 0 < price → pnlOf averagePrice price = 100) := by
  constructor
  · intro h
    unfold pnlOf
    rw [if_neg (ne_of_gt h)]
  · intro h hp
    subst h
    unfold pnlOf
    rw [if_pos rfl, sub_zero, div_self (ne_of_gt hp), one_mul]

/-- Concrete witness for `pnlOf_spec`. -/
theorem pnlOf_spec_witness : pnlOf 100 103 = 3 ∧ pnlOf 0 100 = 100 :=
  ⟨by rw [(pnlOf_spec 100 103).1 (by norm_num)]; norm_num,
    (pnlOf_spec 0 100).2 rfl (by norm_num)⟩

/-- C4: on a tick where both the profit and the loss exit condition hold,
the live engine records a PROFIT exit, never a LOSS: the profit comparison
is evaluated first and wins ties. -/
theorem exit_profit_priority (cfg : TradingConfig) (st : TradeStatus)
    (price changeRate : ℚ) (sellOk buyOk : Bool)
    (hact : st.isActive = true)
    (hprofit : pnlOf st.averagePrice price ≥ cfg.targetProfit)
    (hloss : pnlOf st.averagePrice price ≤ -cfg.stopLoss) :
    ∃ r : TradeRecord,
      (updateLoop cfg st price changeRate sellOk buyOk).record = some r
        ∧ r.exitType = ExitType.PROFIT := by
  simp only [updateLoop]
  rw [if_pos hact, if_pos (Or.inl hprofit), if_pos hprofit]
  exact ⟨_, rfl, rfl⟩

/-- Concrete witness for `exit_profit_priority`: a borderline tick where
both bounds hold with equality. -/
theorem exit_profit_priority_witness :
    ∃ r : TradeRecord,
      (updateLoop ⟨10, 2, 0, 0, 1, 0⟩ ⟨true, 3, 100, 1, 100, 100, 0, 0, 100⟩
          100 0 true true).record = some r
        ∧ r.exitType = ExitType.PROFIT :=
  exit_profit_priority ⟨10, 2, 0, 0, 1, 0⟩ ⟨true, 3, 100, 1, 100, 100, 0, 0, 100⟩
    100 0 true true rfl (by norm_num [pnlOf]) (by norm_num [pnlOf])

/-- C5: while a backtest position is open, a bar whose range spans both the
stop-loss and the take-profit threshold is settled as a loss at the
stop-loss price (the low check comes first), never as a win. -/
theorem backtest_stoploss_first (cfg : TradingConfig) (capital : ℚ)
    (s : BtState) (c : CandleData) (hopen : ¬s.step = 0)
    (hsl : lowOf c ≤ s.avgPrice * (1 - cfg.stopLoss / 100))
    (htp : highOf c ≥ s.avgPrice * (1 + cfg.targetProfit / 100)) :
    (backtestStep cfg capital s c).losses = s.losses + 1
    ∧ (backtestStep cfg capital s c).wins = s.wins
    ∧ (backtestStep cfg capital s c).trades = s.trades + 1
    ∧ (backtestStep cfg capital s c).step = 0
    ∧ (backtestStep cfg capital s c).balance
        = s.balance + (s.totalQty * (s.avgPrice * (1 - cfg.stopLoss / 100))
            - s.totalInvested) := by
  simp only [backtestStep, backtestTrade]
  rw [if_neg hopen, if_pos hsl]
  simp

/-- Concrete witness for `backtest_stoploss_first`: one bar with low 80 and
high 120 against an average of 100, stop-loss 10 percent, target 5 percent. -/
theorem backtest_stoploss_first_witness :
    (backtestStep ⟨3, 5, 5, 10, 1, 0⟩ 10000 ⟨0, 1, 1, 100, 100, 0, 0, 0, 100, 0, 0⟩
        ⟨100, some 120, some 80⟩).losses = 0 + 1
    ∧ (backtestStep ⟨3, 5, 5, 10, 1, 0⟩ 10000 ⟨0, 1, 1, 100, 100, 0, 0, 0, 100, 0, 0⟩
        ⟨100, some 120, some 80⟩).wins = 0
    ∧ (backtestStep ⟨3, 5, 5, 10, 1, 0⟩ 10000 ⟨0, 1, 1, 100, 100, 0, 0, 0, 100, 0, 0⟩
        ⟨100, some 120, some 80⟩).trades = 0 + 1
    ∧ (backtestStep ⟨3, 5, 5, 10, 1, 0⟩ 10000 ⟨0, 1, 1, 100, 100, 0, 0, 0, 100, 0, 0⟩
        ⟨100, some 120, some 80⟩).step = 0
    ∧ (backtestStep ⟨3, 5, 5, 10, 1, 0⟩ 10000 ⟨0, 1, 1, 100, 100, 0, 0, 0, 100, 0, 0⟩
        ⟨100, some 120, some 80⟩).balance
        = 0 + ((1 : ℚ) * ((100 : ℚ) * (1 - (10 : ℚ) / 100)) - 100) :=
  backtest_stoploss_first ⟨3, 5, 5, 10, 1, 0⟩ 10000
    ⟨0, 1, 1, 100, 100, 0, 0, 0, 100, 0, 0⟩ ⟨100, some 120, some 80⟩
    (by norm_num) (by norm_num [lowOf]) (by norm_num [highOf])

/-! ## Exit and error handling -/

/-- C6: once an exit condition fires on a tick, the trade record is emitted
and the position state is reset to inactive with every position field
zeroed, identically whether the market sell order succeeds or fails: a
failed sell never leaves the position active. -/
theorem exit_reset_regardless_of_sell (cfg : TradingConfig) (st : TradeStatus)
    (price changeRate : ℚ) (buyOk sellOk : Bool) (hact : st.isActive = true)
    (hexit : pnlOf st.averagePrice price ≥ cfg.targetProfit
        ∨ pnlOf st.averagePrice price ≤ -cfg.stopLoss) :
    (updateLoop cfg st price changeRate sellOk buyOk).status.isActive = false
    ∧ (updateLoop cfg st price changeRate sellOk buyOk).status.currentStep = 0
    ∧ (updateLoop cfg st price changeRate sellOk buyOk).status.averagePrice = 0
    ∧ (updateLoop cfg st price changeRate sellOk buyOk).status.totalQuantity = 0
    ∧ (updateLoop cfg st price changeRate sellOk buyOk).status.totalInvested = 0
    ∧ (updateLoop cfg st price changeRate sellOk buyOk).status.lastBuyPrice = 0
    ∧ (updateLoop cfg st price changeRate sellOk buyOk).record.isSome = true
    ∧ (updateLoop cfg st price changeRate sellOk buyOk).status
        = (updateLoop cfg st price changeRate true buyOk).status
    ∧ (updateLoop cfg st price changeRate sellOk buyOk).record
        = (updateLoop cfg st price changeRate true buyOk).record := by
  have key : ∀ b : Bool,
      (updateLoop cfg st price changeRate b buyOk).status =
        { st with
          isActive := false
          currentStep := 0
          pnlPercentage := 0
          totalInvested := 0
          totalQuantity := 0
          averagePrice := 0
          lastBuyPrice := 0
          currentPrice := price
          currentChangeRate := changeRate }
      ∧ (updateLoop cfg st price changeRate b buyOk).record =
          some
            { exitType :=
                if pnlOf st.averagePrice price ≥ cfg.targetProfit then
                  ExitType.PROFIT
                else ExitType.LOSS
              pnlPercentage := pnlOf st.averagePrice price
              pnlAmount := st.totalInvested * (pnlOf st.averagePrice price / 100)
              totalInvested := st.totalInvested
              finalStep := st.currentStep } := by
    intro b
    simp only [updateLoop]
    rw [if_pos hact, if_pos hexit]
    exact ⟨rfl, rfl⟩
  obtain ⟨hs, hr⟩ := key sellOk
  obtain ⟨hs2, hr2⟩ := key true
  refine ⟨?_, ?_, ?_, ?_, ?_, ?_, ?_, ?_, ?_⟩ <;> simp [hs, hs2, hr, hr2]

/-- Concrete witness for `exit_reset_regardless_of_sell`, with the sell
order failing. -/
theorem exit_reset_regardless_of_sell_witness :
    (updateLoop ⟨10, 2, 3, 10, 1, 0⟩ ⟨true, 2, 100, 1, 100, 100, 0, 0, 100⟩
        104 0 false true).status.isActive = false
    ∧ (updateLoop ⟨10, 2, 3, 10, 1, 0⟩ ⟨true, 2, 100, 1, 100, 100, 0, 0, 100⟩
        104 0 false true).status.currentStep = 0
    ∧ (updateLoop ⟨10, 2, 3, 10, 1, 0⟩ ⟨true, 2, 100, 1, 100, 100, 0, 0, 100⟩
        104 0 false true).status.averagePrice = 0
    ∧ (updateLoop ⟨10, 2, 3, 10, 1, 0⟩ ⟨true, 2, 100, 1, 100, 100, 0, 0, 100⟩
        104 0 false true).status.totalQuantity = 0
    ∧ (updateLoop ⟨10, 2, 3, 10, 1, 0⟩ ⟨true, 2, 100, 1, 100, 100, 0, 0, 100⟩
        104 0 false true).status.totalInvested = 0
    ∧ (updateLoop ⟨10, 2, 3, 10, 1, 0⟩ ⟨true, 2, 100, 1, 100, 100, 0, 0, 100⟩
        104 0 false true).status.lastBuyPrice = 0
    ∧ (updateLoop ⟨10, 2, 3, 10, 1, 0⟩ ⟨true, 2, 100, 1, 100, 100, 0, 0, 100⟩
        104 0 false true).record.isSome = true
    ∧ (updateLoop ⟨10, 2, 3, 10, 1, 0⟩ ⟨true, 2, 100, 1, 100, 100, 0, 0, 100⟩
        104 0 false true).status
        = (updateLoop ⟨10, 2, 3, 10, 1, 0⟩ ⟨true, 2, 100, 1, 100, 100, 0, 0, 100⟩
            104 0 true true).status
    ∧ (updateLoop ⟨10, 2, 3, 10, 1, 0⟩ ⟨true, 2, 100, 1, 100, 100, 0, 0, 100⟩
        104 0 false true).record
        = (updateLoop ⟨10, 2, 3, 10, 1, 0⟩ ⟨true, 2, 100, 1, 100, 100, 0, 0, 100⟩
            104 0 true true).record :=
  exit_reset_regardless_of_sell ⟨10, 2, 3, 10, 1, 0⟩
    ⟨true, 2, 100, 1, 100, 100, 0, 0, 100⟩ 104 0 true false rfl
    (Or.inl (by norm_num [pnlOf]))

/-- C7: when a scale-in is due but the buy order placement fails, the whole
position state is left unchanged (so the position stays active and the next
tick will retry the same threshold check), no trade record is emitted, and
the failure is surfaced as an order error. -/
theorem scalein_failure_leaves_state (cfg : TradingConfig) (st : TradeStatus)
    (price changeRate : ℚ) (sellOk : Bool) (hact : st.isActive = true)
    (hnoexit : ¬(pnlOf st.averagePrice price ≥ cfg.targetProfit
        ∨ pnlOf st.averagePrice price ≤ -cfg.stopLoss))
    (hstep : st.currentStep < cfg.maxBuySteps)
    (hthresh : price ≤ st.lastBuyPrice * (1 - cfg.buyInterval / 100)) :
    (updateLoop cfg st price changeRate sellOk false).status = st
    ∧ (updateLoop cfg st price changeRate sellOk false).status.isActive = true
    ∧ (updateLoop cfg st price changeRate sellOk false).record = none
    ∧ (updateLoop cfg st price changeRate sellOk false).orderError = true := by
  simp only [updateLoop]
  rw [if_pos hact, if_neg hnoexit, if_pos ⟨hstep, hthresh⟩]
  simp [hact]

/-- Concrete witness for `scalein_failure_leaves_state`: price has dropped
to the scale-in threshold, the buy order fails, nothing changes. -/
theorem scalein_failure_leaves_state_witness :
    (updateLoop ⟨10, 2, 3, 10, 1, 0⟩ ⟨true, 2, 100, 1, 100, 100, 0, 0, 100⟩
        97 0 true false).status = ⟨true, 2, 100, 1, 100, 100, 0, 0, 100⟩
    ∧ (updateLoop ⟨10, 2, 3, 10, 1, 0⟩ ⟨true, 2, 100, 1, 100, 100, 0, 0, 100⟩
        97 0 true false).status.isActive = true
    ∧ (updateLoop ⟨10, 2, 3, 10, 1, 0⟩ ⟨true, 2, 100, 1, 100, 100, 0, 0, 100⟩
        97 0 true false).record = none
    ∧ (updateLoop ⟨10, 2, 3, 10, 1, 0⟩ ⟨true, 2, 100, 1, 100, 100, 0, 0, 100⟩
        97 0 true false).orderError = true :=
  scalein_failure_leaves_state ⟨10, 2, 3, 10, 1, 0⟩
    ⟨true, 2, 100, 1, 100, 100, 0, 0, 100⟩ 97 0 true rfl
    (by norm_num [pnlOf]) (by norm_num) (by norm_num)

/-! ## Step monotonicity -/

/-- C8: over any tick, `currentStep` does not decrease while the position
stays active; it never exceeds `maxBuySteps` (a scale-in fires only when
`currentStep < maxBuySteps`); a tick deactivates the position only through
an exit, which zeroes the step and emits a trade record; and `stop()`
zeroes it. -/
theorem currentStep_monotone_bounded (cfg : TradingConfig) (st : TradeStatus)
    (price changeRate : ℚ) (sellOk buyOk : Bool)
    (hbound : st.currentStep ≤ cfg.maxBuySteps) :
    (st.isActive = true →
      (updateLoop cfg st price changeRate sellOk buyOk).status.isActive = true →
      st.currentStep
        ≤ (updateLoop cfg st price changeRate sellOk buyOk).status.currentStep)
    ∧ (updateLoop cfg st price changeRate sellOk buyOk).status.currentStep
        ≤ cfg.maxBuySteps
    ∧ (st.isActive = true →
      (updateLoop cfg st price changeRate sellOk buyOk).status.isActive = false →
      (updateLoop cfg st price changeRate sellOk buyOk).status.currentStep = 0
      ∧ (updateLoop cfg st price changeRate sellOk buyOk).record.isSome = true)
    ∧ (stopBot st).currentStep = 0 := by
  refine ⟨?_, ?_, ?_, rfl⟩ <;>
  · simp only [updateLoop]
    split_ifs <;> simp_all <;> omega

/-- Concrete witness for `currentStep_monotone_bounded` on a hold tick. -/
theorem currentStep_monotone_bounded_witness :
    ((⟨true, 2, 100, 1, 100, 100, 0, 0, 100⟩ : TradeStatus).isActive = true →
      (updateLoop ⟨10, 2, 3, 10, 1, 0⟩ ⟨true, 2, 100, 1, 100, 100, 0, 0, 100⟩
          100 0 true true).status.isActive = true →
      (⟨true, 2, 100, 1, 100, 100, 0, 0, 100⟩ : TradeStatus).currentStep
        ≤ (updateLoop ⟨10, 2, 3, 10, 1, 0⟩ ⟨true, 2, 100, 1, 100, 100, 0, 0, 100⟩
            100 0 true true).status.currentStep)
    ∧ (updateLoop ⟨10, 2, 3, 10, 1, 0⟩ ⟨true, 2, 100, 1, 100, 100, 0, 0, 100⟩
        100 0 true true).status.currentStep ≤ 10
    ∧ ((⟨true, 2, 100, 1, 100, 100, 0, 0, 100⟩ : TradeStatus).isActive = true →
      (updateLoop ⟨10, 2, 3, 10, 1, 0⟩ ⟨true, 2, 100, 1, 100, 100, 0, 0, 100⟩
          100 0 true true).status.isActive = false →
      (updateLoop ⟨10, 2, 3, 10, 1, 0⟩ ⟨true, 2, 100, 1, 100, 100, 0, 0, 100⟩
          100 0 true true).status.currentStep = 0
      ∧ (updateLoop ⟨10, 2, 3, 10, 1, 0⟩ ⟨true, 2, 100, 1, 100, 100, 0, 0, 100⟩
          100 0 true true).record.isSome = true)
    ∧ (stopBot ⟨true, 2, 100, 1, 100, 100, 0, 0, 100⟩).currentStep = 0 :=
  currentStep_monotone_bounded ⟨10, 2, 3, 10, 1, 0⟩
    ⟨true, 2, 100, 1, 100, 100, 0, 0, 100⟩ 100 0 true true (by norm_num)

/-! ## Drawdown -/

lemma ddStep_nonneg (pm : ℚ × ℚ) (e : ℚ) (h : 0 ≤ pm.2) : 0 ≤ (ddStep pm e).2 := by
  unfold ddStep
  dsimp only
  split_ifs <;> linarith

lemma backtestCascade_mdd (cfg : TradingConfig) (capital low : ℚ) :
    ∀ (fuel : Nat) (s : BtState), (backtestCascade cfg capital low fuel s).mdd = s.mdd := by
  intro fuel
  induction fuel with
  | zero => intro s; rfl
  | succ n ih =>
    intro s
    simp only [backtestCascade]
    split_ifs with hlow
    · rw [ih]
    · rfl

lemma backtestTrade_mdd (cfg : TradingConfig) (capital : ℚ) (s : BtState)
    (c : CandleData) : (backtestTrade cfg capital s c).mdd = s.mdd := by
  simp only [backtestTrade]
  split_ifs <;> first | rfl | exact backtestCascade_mdd cfg capital (lowOf c) _ s

lemma backtestStep_mdd_nonneg (cfg : TradingConfig) (capital : ℚ) (s : BtState)
    (c : CandleData) (h : 0 ≤ s.mdd) : 0 ≤ (backtestStep cfg capital s c).mdd := by
  simp only [backtestStep]
  exact ddStep_nonneg _ _ (by rw [backtestTrade_mdd]; exact h)

lemma runBacktestState_mdd_nonneg (cfg : TradingConfig)
    (candles : List CandleData) : 0 ≤ (runBacktestState cfg candles).mdd := by
  unfold runBacktestState
  have main : ∀ (l : List CandleData) (s : BtState), 0 ≤ s.mdd →
      0 ≤ (l.foldl (backtestStep cfg (cfg.initialAmount * 10000)) s).mdd := by
    intro l
    induction l with
    | nil => intro s h; exact h
    | cons c t ih => intro s h; exact ih _ (backtestStep_mdd_nonneg cfg _ s c h)
  exact main candles BtState.init le_rfl

lemma roundTo2_nonneg (x : ℚ) (h : 0 ≤ x) : 0 ≤ roundTo2 x := by
  unfold roundTo2
  have hr : (0 : ℤ) ≤ round (x * 100) := by
    rw [round_eq]
    exact Int.floor_nonneg.mpr (by linarith)
  positivity

lemma ddStep_flat (p e : ℚ) (hp : 0 ≤ p) (hpe : p ≤ max 0 e) :
    ddStep (p, 0) e = (max 0 e, 0) := by
  unfold ddStep
  dsimp only
  have hpeak : (if p < e then e else p) = max 0 e := by
    split_ifs with hlt
    · rcases le_or_lt e 0 with h0 | h0
      · linarith
      · rw [max_eq_right h0.le]
    · push_neg at hlt
      rcases le_or_lt e 0 with h0 | h0
      · rw [max_eq_left h0] at hpe ⊢
        linarith
      · rw [max_eq_right h0.le] at hpe ⊢
        linarith
  rw [hpeak]
  have hdd : (if max 0 e ≤ 0 then (0 : ℚ) else (max 0 e - e) / max 0 e * 100) = 0 := by
    split_ifs with hle
    · rfl
    · push_neg at hle
      have he : max 0 e = e := by
        rcases le_or_lt e 0 with h0 | h0
        · rw [max_eq_left h0] at hle; linarith
        · exact max_eq_right h0.le
      rw [he, sub_self, zero_div, zero_mul]
  rw [hdd]
  norm_num

lemma ddFold_chain : ∀ (l : List ℚ) (prev : ℚ), List.Chain (· ≤ ·) prev l →
    l.foldl ddStep (max 0 prev, 0) = (max 0 (l.getLastD prev), 0) := by
  intro l
  induction l with
  | nil => intro prev _; simp
  | cons e t ih =>
    intro prev hchain
    obtain ⟨h1, h2⟩ := List.chain_cons.mp hchain
    rw [List.foldl_cons,
      ddStep_flat (max 0 prev) e (le_max_left 0 prev) (max_le_max le_rfl h1),
      ih e h2, List.getLastD_cons]

/-- C9: the backtest's maximum drawdown is never negative — both the raw
loop variable and the reported, rounded `maxDrawdown` — and the per-bar
drawdown fold (`(peak - equity)/peak * 100`, treated as 0 when
`peak ≤ 0`) yields a maximum drawdown of exactly 0 over any monotonically
non-decreasing equity sequence. -/
theorem maxDrawdown_nonneg_and_flat_on_monotone :
    (∀ (cfg : TradingConfig) (candles : List CandleData),
      0 ≤ (runBacktestState cfg candles).mdd
      ∧ 0 ≤ (runBacktest cfg candles).maxDrawdown)
    ∧ (∀ equities : List ℚ, List.Chain' (· ≤ ·) equities →
      (equities.foldl ddStep (0, 0)).2 = 0) := by
  constructor
  · intro cfg candles
    refine ⟨runBacktestState_mdd_nonneg cfg candles, ?_⟩
    exact roundTo2_nonneg _ (runBacktestState_mdd_nonneg cfg candles)
  · intro equities hchain
    rcases equities with _ | ⟨e, t⟩
    · rfl
    · have hch : List.Chain (· ≤ ·) e t := hchain
      rw [List.foldl_cons, ddStep_flat 0 e le_rfl (le_max_left 0 e),
        ddFold_chain t e hch]

/-- Concrete witness for `maxDrawdown_nonneg_and_flat_on_monotone`: a
non-decreasing equity path yields zero maximum drawdown (and a concrete
backtest drawdown bound). -/
theorem maxDrawdown_nonneg_and_flat_on_monotone_witness :
    (([0, 1, 2] : List ℚ).foldl ddStep (0, 0)).2 = 0
    ∧ 0 ≤ (runBacktest ⟨3, 5, 5, 10, 1, 0⟩ [⟨100, none, none⟩]).maxDrawdown :=
  ⟨maxDrawdown_nonneg_and_flat_on_monotone.2 [0, 1, 2] (by norm_num),
    (maxDrawdown_nonneg_and_flat_on_monotone.1 ⟨3, 5, 5, 10, 1, 0⟩
      [⟨100, none, none⟩]).2⟩

/-! ## Capital scaling -/

/-- C10: every monetary buy amount is derived from
`config.initialAmount * 10000`: the initial live buy invests exactly that,
a live scale-in from step s adds `initialAmount * 10000 * (1 +
premiumRate/100)^s`, the backtest opens each position with that capital,
and the backtest profit rate is normalised by the same
`initialAmount * 10000` capital. -/
theorem initialAmount_times_tenThousand (cfg : TradingConfig)
    (price changeRate : ℚ) :
    (startBot cfg price changeRate).totalInvested = cfg.initialAmount * 10000
    ∧ (∀ (st : TradeStatus) (cr : ℚ) (sellOk : Bool),
        st.isActive = true →
        ¬(pnlOf st.averagePrice price ≥ cfg.targetProfit
            ∨ pnlOf st.averagePrice price ≤ -cfg.stopLoss) →
        st.currentStep < cfg.maxBuySteps →
        price ≤ st.lastBuyPrice * (1 - cfg.buyInterval / 100) →
        (updateLoop cfg st price cr sellOk true).status.totalInvested
          = st.totalInvested
            + cfg.initialAmount * 10000
                * (1 + cfg.premiumRate / 100) ^ st.currentStep)
    ∧ (∀ (s : BtState) (c : CandleData), s.step = 0 →
        (backtestStep cfg (cfg.initialAmount * 10000) s c).totalInvested
          = cfg.initialAmount * 10000)
    ∧ (∀ candles : List CandleData,
        (runBacktest cfg candles).profitRate
          = roundTo2 ((runBacktestState cfg candles).balance
              / (cfg.initialAmount * 10000) * 100)) := by
  refine ⟨rfl, ?_, ?_, fun candles => rfl⟩
  · intro st cr sellOk hact hnoexit hlt hle
    simp only [updateLoop]
    rw [if_pos hact, if_neg hnoexit, if_pos ⟨hlt, hle⟩]
    simp [applyFill]
  · intro s c hstep
    simp only [backtestStep, backtestTrade]
    rw [if_pos hstep]

/-- Concrete witness for `initialAmount_times_tenThousand`. -/
theorem initialAmount_times_tenThousand_witness :
    (startBot ⟨10, 2, 3, 10, 1, 0⟩ 100 0).totalInvested = (1 : ℚ) * 10000 :=
  (initialAmount_times_tenThousand ⟨10, 2, 3, 10, 1, 0⟩ 100 0).1
